import Mathlib

set_option maxHeartbeats 1000000

/- Verification development for the gwf execution layer: the local-cluster
   scheduler (src/gwf/backends/local.py), the Slurm backend
   (gwf/backends/slurm.py) and the legacy backend adapters (gwf/backends.py),
   embedded shallowly as executable Lean definitions. -/

/-! ## Association lists modelling Python dicts

Python dicts are insertion-ordered maps with unique keys.  We model them as
association lists: `dictGet?` is `d.get(k)`, `dictSet` is `d[k] = v` (replace
in place when the key exists, append otherwise), `dictDel` is `del d[k]`
(keys are unique by construction, so removing the first occurrence suffices),
`dictValues` is `d.values()`. -/

def dictGet? {α : Type} : List (String × α) → String → Option α
  | [], _ => none
  | (k, v) :: rest, key => if k = key then some v else dictGet? rest key

def dictSet {α : Type} : List (String × α) → String → α → List (String × α)
  | [], key, val => [(key, val)]
  | (k, v) :: rest, key, val =>
    if k = key then (key, val) :: rest else (k, v) :: dictSet rest key val

def dictDel {α : Type} : List (String × α) → String → List (String × α)
  | [], _ => []
  | (k, v) :: rest, key => if k = key then rest else (k, v) :: dictDel rest key

def dictGetD {α : Type} (d : List (String × α)) (key : String) (dflt : α) : α :=
  (dictGet? d key).getD dflt

def dictValues {α : Type} (d : List (String × α)) : List α := d.map (·.2)

/-- `d.update(other)` on Python dicts: set every key/value pair of `other`. -/
def dictUpdate {α : Type} (d other : List (String × α)) : List (String × α) :=
  other.foldl (fun acc kv => dictSet acc kv.1 kv.2) d

/-- `s.add(x)` on a Python set, modelled as an insertion-ordered duplicate-free
list. -/
def setAdd (s : List String) (x : String) : List String :=
  if x ∈ s then s else s ++ [x]

namespace GwfLocal

/-! ## Local backend (src/gwf/backends/local.py)

The `LocalStatus` enum, the `Task` record, and the `Server`'s mutable state
(`_tasks`, `_task_states`, `_pending_tasks`, `_joined_workers`,
`_used_workers`).  `_joined_workers` maps worker id to a `JoinedWorker`
handle whose only observable behaviour is sending `run_task`; we keep just
the ordered key list and record dispatches `(task_id, worker_id)` as
outputs. -/

inductive LocalStatus
  | UNKNOWN
  | SUBMITTED
  | RUNNING
  | FAILED
  | COMPLETED
  deriving DecidableEq, Repr

structure Task where
  task_id : String
  name : String
  working_dir : String
  spec : String
  /-- `frozenset(dependencies)`; only membership queries are made, so an
  insertion-ordered list is an adequate model. -/
  dependencies : List String
  stdout_path : String
  stderr_path : String
  deriving DecidableEq, Repr

structure ServerState where
  tasks : List (String × Task)
  task_states : List (String × LocalStatus)
  pending_tasks : List String
  joined_workers : List String
  used_workers : List (String × String)
  deriving Repr

def initialState : ServerState :=
  { tasks := [], task_states := [], pending_tasks := [],
    joined_workers := [], used_workers := [] }

/-- Wire messages handled by the Server (we omit `close`, which only touches
connection bookkeeping, and carry the decoded `LocalStatus` directly in
`update_task_state`). -/
inductive Event
  | join_worker (worker_id : String)
  | leave_worker (worker_id : String)
  | update_task_state (task_id : String) (new_state : LocalStatus)
  | get_task_states
  | submit_task (task_id name working_dir spec : String)
      (dependencies : List String) (stdout_path stderr_path : String)
  deriving DecidableEq, Repr

/-- `for worker_id, worker in self._joined_workers.items(): if worker_id not in
self._used_workers.values(): ... break` — note the membership test is against
the `_used_workers` *field*, which is not updated until after the scheduling
loop. -/
def freeWorker (joined : List String) (used : List (String × String)) :
    Option String :=
  joined.find? (fun w => !(dictValues used).contains w)

structure LoopRes where
  failed : List String
  usedLocal : List (String × String)
  dispatches : List (String × String)
  err : Option String
  deriving Repr

/-- The body of `Server._schedule_once`: one iteration per pending task.
`self._tasks[task_id]` raises `KeyError` when absent; an exception aborts the
loop, but `run_task` messages already sent stay sent, and no field of the
Server has been mutated yet at that point. -/
def scheduleLoop (st : ServerState) :
    List String → List String → List (String × String) →
    List (String × String) → LoopRes
  | [], failed, usedLocal, disp =>
    { failed := failed, usedLocal := usedLocal, dispatches := disp, err := none }
  | tid :: rest, failed, usedLocal, disp =>
    match dictGet? st.tasks tid with
    | none =>
      { failed := failed, usedLocal := usedLocal, dispatches := disp,
        err := some "KeyError" }
    | some task =>
      if ∃ d ∈ task.dependencies,
          dictGet? st.task_states d = some LocalStatus.FAILED then
        scheduleLoop st rest (failed ++ [tid]) usedLocal disp
      else if ∃ d ∈ task.dependencies,
          ¬dictGet? st.task_states d = some LocalStatus.COMPLETED then
        scheduleLoop st rest failed usedLocal disp
      else
        match freeWorker st.joined_workers st.used_workers with
        | some w =>
          scheduleLoop st rest failed (dictSet usedLocal tid w)
            (disp ++ [(tid, w)])
        | none => scheduleLoop st rest failed usedLocal disp

structure StepRes where
  state : ServerState
  dispatches : List (String × String)
  err : Option String

/-- The field mutations `_schedule_once` performs after its loop: update
`self._used_workers` with this pass's assignments, remove scheduled tasks
from pending, and mark failed tasks `FAILED` and remove them from pending
(scheduled and failed tasks come from distinct pending entries, so removal
by filtering is exact).  When the loop raised, no field has been mutated. -/
def scheduleResultState (st : ServerState) (r : LoopRes) : ServerState :=
  match r.err with
  | some _ => st
  | none =>
    { st with
      used_workers := dictUpdate st.used_workers r.usedLocal,
      pending_tasks :=
        (st.pending_tasks.filter
          (fun t => ¬t ∈ r.usedLocal.map (·.1))).filter
          (fun t => ¬t ∈ r.failed),
      task_states :=
        r.failed.foldl (fun d t => dictSet d t LocalStatus.FAILED)
          st.task_states }

def scheduleOnce (st : ServerState) : StepRes :=
  { state := scheduleResultState st (scheduleLoop st st.pending_tasks [] [] []),
    dispatches := (scheduleLoop st st.pending_tasks [] [] []).dispatches,
    err := (scheduleLoop st st.pending_tasks [] [] []).err }

/-- The state mutation a handler performs before any scheduling pass.  For
`update_task_state` the new state is recorded first; when the state is
terminal and the task has no worker assignment, `del
self._used_workers[task_id]` raises `KeyError` with the state already
recorded. -/
def eventApply (st : ServerState) : Event → ServerState × Option String
  | .join_worker wid =>
    ({ st with joined_workers :=
        if wid ∈ st.joined_workers then st.joined_workers
        else st.joined_workers ++ [wid] }, none)
  | .leave_worker wid =>
    if wid ∈ st.joined_workers then
      ({ st with joined_workers := st.joined_workers.filter (· ≠ wid) }, none)
    else (st, some "KeyError")
  | .update_task_state tid s =>
    let st1 := { st with task_states := dictSet st.task_states tid s }
    if s = LocalStatus.COMPLETED ∨ s = LocalStatus.FAILED then
      if (dictGet? st1.used_workers tid).isSome then
        ({ st1 with used_workers := dictDel st1.used_workers tid }, none)
      else (st1, some "KeyError")
    else (st1, none)
  | .get_task_states => (st, none)
  | .submit_task tid name wd spec deps out errp =>
    ({ st with
        tasks := dictSet st.tasks tid
          { task_id := tid, name := name, working_dir := wd, spec := spec,
            dependencies := deps, stdout_path := out, stderr_path := errp },
        task_states := dictSet st.task_states tid LocalStatus.SUBMITTED,
        pending_tasks := setAdd st.pending_tasks tid }, none)

/-- Which handlers end with a call to `self._schedule_once()`. -/
def triggersSchedule : Event → Bool
  | .join_worker _ => true
  | .update_task_state _ _ => true
  | .submit_task .. => true
  | _ => false

def step (st : ServerState) (e : Event) : StepRes :=
  match eventApply st e with
  | (st1, some err) => { state := st1, dispatches := [], err := some err }
  | (st1, none) =>
    if triggersSchedule e then scheduleOnce st1
    else { state := st1, dispatches := [], err := none }

/-- Process a list of events on the Server's single event-loop thread.  An
unhandled exception propagates out of the loop, so processing stops at the
first erroring handler.  Returns the final state, all `run_task` dispatches
sent, and the error if one occurred. -/
def run : ServerState → List Event →
    ServerState × List (String × String) × Option String
  | st, [] => (st, [], none)
  | st, e :: es =>
    match (step st e).err with
    | some err => ((step st e).state, (step st e).dispatches, some err)
    | none =>
      ((run (step st e).state es).1,
       (step st e).dispatches ++ (run (step st e).state es).2.1,
       (run (step st e).state es).2.2)

/-- Bookkeeping invariant for the temporal claim: every task whose recorded
state is `COMPLETED` owes it to an `update_task_state(·, COMPLETED)` event
among the processed events — the Server itself never writes `COMPLETED`
(`_schedule_once` only writes `FAILED`, `submit_task` writes
`SUBMITTED`). -/
def completedRecorded (es : List Event) (s : ServerState) : Prop :=
  ∀ t, dictGet? s.task_states t = some LocalStatus.COMPLETED →
    Event.update_task_state t LocalStatus.COMPLETED ∈ es

/-! ## Worker.run_task (src/gwf/backends/local.py)

`run_task` first reports `RUNNING`, then runs the task body inside
`try/except Exception`; the `except` arm reports `FAILED`, the `else` arm
reports `COMPLETED`.  The body's possible outcomes: an exception while
setting up the subprocess, the bounded poll loop raising on a pending
shutdown request, `process.wait(timeout=60)` expiring, or the subprocess
exiting with some return code (non-zero raises). -/

inductive TaskOutcome
  | setupFailure
  | shutdownInterrupt
  | waitTimeout
  | exited (returncode : Int)
  deriving DecidableEq, Repr

def runTaskBody : TaskOutcome → Except String Unit
  | .setupFailure => .error "exception during subprocess setup"
  | .shutdownInterrupt => .error "Worker received shutdown signal"
  | .waitTimeout => .error "TimeoutExpired"
  | .exited rc =>
    if rc ≠ 0 then .error "exited with non-zero return code" else .ok ()

/-- The sequence of `update_task_state` reports `Worker.run_task` sends for
one task.  The function is total: the worker catches every exception and
returns to its message loop. -/
def runTaskReports (o : TaskOutcome) : List LocalStatus :=
  LocalStatus.RUNNING ::
    (match runTaskBody o with
     | .error _ => [LocalStatus.FAILED]
     | .ok () => [LocalStatus.COMPLETED])

def isTerminal : LocalStatus → Bool
  | .FAILED => true
  | .COMPLETED => true
  | _ => false

/-- `LocalOps.cancel_job`: the local backend does not support cancellation
and raises unconditionally. -/
def cancel_job (_job_id : String) : Except String Unit :=
  .error "UnsupportedOperationError: cancel"

end GwfLocal

namespace GwfSlurm

/-! ## Slurm backend (gwf/backends/slurm.py) -/

/-- `JOB_STATE_CODES`: squeue state code → simplified vocabulary. -/
def JOB_STATE_CODES : List (String × String) :=
  [("BF", "?"), ("CA", "?"), ("CD", "?"), ("CF", "R"), ("CG", "R"),
   ("F", "?"), ("NF", "?"), ("PD", "Q"), ("PR", "?"), ("R", "R"),
   ("S", "R"), ("TO", "?"), ("SE", "Q")]

/-- `OPTION_TABLE`: recognized target option keys and their `sbatch` flag
text. -/
def OPTION_TABLE : List (String × String) :=
  [("nodes", "-N "), ("cores", "-c "), ("memory", "--mem="),
   ("walltime", "-t "), ("queue", "-p "), ("account", "-A "),
   ("constraint", "-C "), ("mail_type", "--mail-type="),
   ("mail_user", "--mail-user=")]

/-- The loop body of `SlurmBackend._live_job_states` over the squeue table
(rows of `job_id;state;depends`).  An unknown state code raises `KeyError`
(`JOB_STATE_CODES[state]`), which propagates. -/
def liveJobStatesLoop :
    List (String × String × String) → List (String × String) →
    Except String (List (String × String))
  | [], acc => .ok acc
  | (job_id, state, depends) :: rest, acc =>
    match dictGet? JOB_STATE_CODES state with
    | none => .error "KeyError"
    | some simple_state =>
      if simple_state = "Q" ∧ depends ≠ "" then
        liveJobStatesLoop rest (dictSet acc job_id "H")
      else
        liveJobStatesLoop rest (dictSet acc job_id simple_state)

def live_job_states (rows : List (String × String × String)) :
    Except String (List (String × String)) :=
  liveJobStatesLoop rows []

/-- The dict comprehension in `SlurmBackend.configure` that reconciles the
persisted job database against the live squeue poll:
`{target_name: self._live_job_states[job_id] for target_name, job_id in
self._job_db.items() if job_id in self._live_job_states}`.
Note that it maps each surviving target name to `live[job_id]` — the
simplified *state* — not to `job_id`. -/
def configureReconcile (job_db live : List (String × String)) :
    List (String × String) :=
  job_db.filterMap fun kv =>
    match dictGet? live kv.2 with
    | some v => some (kv.1, v)
    | none => none

/-- `SlurmBackend.running`: look up the target's recorded job id and test
whether its live state is `R`.  `self._job_db.get(target.name)` defaults to
`None`, which is never a key of the live table, so
`self._live_job_states.get(None, '?')` yields `'?'`. -/
def running (job_db live : List (String × String)) (target_name : String) :
    Bool :=
  match dictGet? job_db target_name with
  | none => false
  | some target_job_id => dictGetD live target_job_id "?" = "R"

/-- `SlurmBackend._compile_script`, as the list of lines joined by newlines.
Directive lines are emitted while iterating `target.options.items()` in the
dict's insertion order; unrecognized keys are skipped
(`option_name not in self.supported_options`). -/
def compile_script (options : List (String × String))
    (working_dir name spec : String) : List String :=
  "#!/bin/bash" ::
    (options.filterMap fun kv =>
      match dictGet? OPTION_TABLE kv.1 with
      | some flag => some ("#SBATCH " ++ flag ++ kv.2)
      | none => none)
    ++ ["", "### Generated by GWF", "cd " ++ working_dir,
        "export GWF_JOBID=$SLURM_JOBID",
        "export GWF_TARGET_NAME=\"" ++ name ++ "\"", "set -e", "", spec]

/-- `SlurmBackend.cancel`: look up the target's job id with default `'?'`;
invoke `scancel -j <id>` only when that id is a key of the live-state
snapshot.  `some j` means the cancellation tool is invoked on `j`; `none`
means no-op.  The method never raises. -/
def cancel (job_db live : List (String × String)) (target_name : String) :
    Option String :=
  if (dictGet? live (dictGetD job_db target_name "?")).isSome then
    some (dictGetD job_db target_name "?")
  else none

/-! ### Job database persistence (dump_atomic / _read_job_db)

The filesystem is a map from path to file contents; a job-database file's
contents are the serialized mapping itself (JSON serialization of a
string-to-string mapping is faithfully invertible, so we store the mapping
structurally). -/

def FileSys : Type := List (String × List (String × String))

def fsRead (fs : FileSys) (path : String) : Option (List (String × String)) :=
  dictGet? fs path

def fsWrite (fs : FileSys) (path : String) (contents : List (String × String)) :
    FileSys :=
  dictSet fs path contents

/-- `os.rename(src, dst)`: atomically replace `dst` with `src`'s contents.
(`dump_atomic` only renames a path it has just written, so the missing-source
error path is never reached; we leave the filesystem unchanged there.) -/
def fsRename (fs : FileSys) (src dst : String) : FileSys :=
  match dictGet? fs src with
  | some contents => fsWrite (dictDel fs src) dst contents
  | none => fs

/-- `dump_atomic(obj, path)`: write to `path + '.new'`, flush and fsync, then
`os.rename(path + '.new', path)`. -/
def dump_atomic (fs : FileSys) (path : String)
    (obj : List (String × String)) : FileSys :=
  fsRename (fsWrite fs (path ++ ".new") obj) (path ++ ".new") path

/-- `dump_atomic` aborted after the temporary file is written and forced to
disk but before the rename step. -/
def dump_atomic_aborted (fs : FileSys) (path : String)
    (obj : List (String × String)) : FileSys :=
  fsWrite fs (path ++ ".new") obj

/-- `_read_job_db(path)`: load the file; `FileNotFoundError` yields `{}`. -/
def read_job_db (fs : FileSys) (path : String) : List (String × String) :=
  (fsRead fs path).getD []

end GwfSlurm

namespace GwfLegacy

/-! ## Legacy adapters (gwf/backends.py) -/

/-- The `map_state` table inside `SlurmBackend.get_state_of_jobs` — the second
implementation of the squeue code mapping. -/
def map_state : List (String × String) :=
  [("BF", "?"), ("CA", "?"), ("CD", "?"), ("CF", "R"), ("CG", "R"),
   ("F", "?"), ("NF", "?"), ("PD", "Q"), ("PR", "?"), ("R", "R"),
   ("S", "R"), ("TO", "?"), ("SE", "Q")]

/-- A value of the result dict of `get_state_of_jobs`: either the `False`
placed by the initializer or a simplified state string. -/
inductive JEntry
  | falseInit
  | state (s : String)
  deriving DecidableEq, Repr

/-- `dict((job_id, False) for job_id in job_ids)`. -/
def gsojInit (job_ids : List String) : List (String × JEntry) :=
  job_ids.foldl (fun d j => dictSet d j JEntry.falseInit) []

/-- The squeue-processing loop of `get_state_of_jobs`.  The whole loop sits
in a bare `try/except: pass`, so a `KeyError` on an unknown state code aborts
processing and the partial result accumulated so far is returned. -/
def gsojLoop :
    List (String × String × String) → List (String × JEntry) →
    List (String × JEntry)
  | [], acc => acc
  | (job_id, state, depends) :: rest, acc =>
    match dictGet? map_state state with
    | none => acc
    | some simple_state =>
      if simple_state = "Q" ∧ depends ≠ "" then
        gsojLoop rest (dictSet acc job_id (JEntry.state "H"))
      else
        gsojLoop rest (dictSet acc job_id (JEntry.state simple_state))

def get_state_of_jobs (job_ids : List String)
    (rows : List (String × String × String)) : List (String × JEntry) :=
  gsojLoop rows (gsojInit job_ids)

/-- Wrap a plain state table into `get_state_of_jobs`'s value type. -/
def wrapStates (m : List (String × String)) : List (String × JEntry) :=
  m.map fun kv => (kv.1, JEntry.state kv.2)

/-- `SlurmBackend.write_script_header` of the legacy adapter: directive lines
in a fixed order, written one `print` at a time.  `options['nodes']` etc.
raise `KeyError` when a required key is missing — lines printed before the
raise are already written, so the result is the lines written so far plus
the error, if any. -/
def write_script_header (options : List (String × String)) :
    List String × Option String :=
  match dictGet? options "nodes" with
  | none => ([], some "KeyError")
  | some nodes =>
    match dictGet? options "cores" with
    | none => (["#SBATCH -N " ++ nodes], some "KeyError")
    | some cores =>
      match dictGet? options "memory" with
      | none =>
        (["#SBATCH -N " ++ nodes, "#SBATCH -c " ++ cores], some "KeyError")
      | some memory =>
        match dictGet? options "walltime" with
        | none =>
          (["#SBATCH -N " ++ nodes, "#SBATCH -c " ++ cores,
            "#SBATCH --mem=" ++ memory], some "KeyError")
        | some walltime =>
          (["#SBATCH -N " ++ nodes, "#SBATCH -c " ++ cores,
            "#SBATCH --mem=" ++ memory, "#SBATCH -t " ++ walltime]
            ++ (match dictGet? options "queue" with
                | some q => ["#SBATCH -p " ++ q]
                | none => [])
            ++ (match dictGet? options "account" with
                | some a => ["#SBATCH -A " ++ a]
                | none => [])
            ++ (match dictGet? options "constraint" with
                | some c => ["#SBATCH -C " ++ c]
                | none => [])
            ++ (match dictGet? options "mail_type" with
                | some mt => ["#SBATCH --mail-type=" ++ mt]
                | none => [])
            ++ (match dictGet? options "mail_user" with
                | some mu => ["#SBATCH --mail-user=" ++ mu]
                | none => []),
           none)

end GwfLegacy

/-! ## Helper lemmas about the dict model -/

theorem dictGet?_dictSet {α : Type} (d : List (String × α)) (k t : String)
    (v : α) :
    dictGet? (dictSet d k v) t = if k = t then some v else dictGet? d t := by
  induction d with
  | nil => simp [dictGet?, dictSet]
  | cons kv rest ih =>
    obtain ⟨k', v'⟩ := kv
    by_cases hk : k' = k
    · subst hk
      simp only [dictSet, if_pos rfl, dictGet?]
      by_cases ht : k' = t <;> simp [ht]
    · simp only [dictSet, if_neg hk, dictGet?]
      by_cases ht : k' = t
      · subst ht
        have : ¬k = k' := fun h => hk h.symm
        simp [this]
      · simp [ht, ih]

theorem dictGet?_dictSet_self {α : Type} (d : List (String × α))
    (k : String) (v : α) : dictGet? (dictSet d k v) k = some v := by
  simp [dictGet?_dictSet]

theorem dictGet?_dictSet_ne {α : Type} (d : List (String × α))
    (k t : String) (v : α) (h : ¬k = t) :
    dictGet? (dictSet d k v) t = dictGet? d t := by
  simp [dictGet?_dictSet, h]

namespace GwfLocal

theorem foldl_setFailed_preserved (l : List String)
    (d : List (String × LocalStatus)) (t : String)
    (h : dictGet? d t = some LocalStatus.FAILED) :
    dictGet? (l.foldl (fun d x => dictSet d x LocalStatus.FAILED) d) t =
      some LocalStatus.FAILED := by
  induction l generalizing d with
  | nil => simpa using h
  | cons a l ih =>
    simp only [List.foldl_cons]
    apply ih
    rw [dictGet?_dictSet]
    by_cases ha : a = t <;> simp [ha, h]

theorem foldl_setFailed_mem (l : List String)
    (d : List (String × LocalStatus)) (t : String) (h : t ∈ l) :
    dictGet? (l.foldl (fun d x => dictSet d x LocalStatus.FAILED) d) t =
      some LocalStatus.FAILED := by
  induction l generalizing d with
  | nil => cases h
  | cons a l ih =>
    simp only [List.foldl_cons]
    rcases List.mem_cons.mp h with rfl | hl
    · by_cases hmem : t ∈ l
      · exact ih _ hmem
      · apply foldl_setFailed_preserved
        simp [dictGet?_dictSet]
    · exact ih _ hl

theorem foldl_setFailed_completed (l : List String)
    (d : List (String × LocalStatus)) (t : String)
    (h : dictGet? (l.foldl (fun d x => dictSet d x LocalStatus.FAILED) d) t =
      some LocalStatus.COMPLETED) :
    dictGet? d t = some LocalStatus.COMPLETED := by
  induction l generalizing d with
  | nil => simpa using h
  | cons a l ih =>
    simp only [List.foldl_cons] at h
    have := ih _ h
    rw [dictGet?_dictSet] at this
    by_cases ha : a = t
    · simp [ha] at this
    · simpa [ha] using this

end GwfLocal

/-! ## Claim theorems -/

namespace GwfLocal

/-- Claim C1 (code-bug evidence): with two independent ready tasks pending
and a single free worker, one scheduling pass (triggered by the worker
joining) dispatches both tasks and records both in the task→worker
assignment table mapped to the same worker, so the table is not injective:
the free-worker test in `_schedule_once` consults the stale `_used_workers`
field instead of the assignments made earlier in the same pass, defeating
the very check meant to enforce one task per worker. -/
theorem c1_one_pass_dispatches_two_tasks_to_same_worker :
    (run initialState
      [Event.submit_task "t1" "A" "wd" "sp" [] "o" "e",
       Event.submit_task "t2" "B" "wd" "sp" [] "o" "e",
       Event.join_worker "w0"]).2.2 = none ∧
    (run initialState
      [Event.submit_task "t1" "A" "wd" "sp" [] "o" "e",
       Event.submit_task "t2" "B" "wd" "sp" [] "o" "e",
       Event.join_worker "w0"]).1.used_workers =
      [("t1", "w0"), ("t2", "w0")] ∧
    (run initialState
      [Event.submit_task "t1" "A" "wd" "sp" [] "o" "e",
       Event.submit_task "t2" "B" "wd" "sp" [] "o" "e",
       Event.join_worker "w0"]).2.1 = [("t1", "w0"), ("t2", "w0")] ∧
    ¬("t1" : String) = "t2" := by
  decide

/-- Claim C8: for every execution outcome, the worker first reports
`RUNNING`, then reports exactly one terminal state — `COMPLETED` exactly
when the subprocess exits zero, and `FAILED` for a non-zero exit, a shutdown
interruption, a reap timeout, or an exception during setup.  `runTaskReports`
is a total function, so the worker returns to its message loop on every
outcome. -/
theorem c8_worker_reports_running_then_one_terminal (o : TaskOutcome) :
    (runTaskReports o).head? = some LocalStatus.RUNNING ∧
    ((runTaskReports o).filter isTerminal).length = 1 ∧
    (runTaskReports o = [LocalStatus.RUNNING, LocalStatus.COMPLETED] ↔
      o = TaskOutcome.exited 0) ∧
    (runTaskReports o = [LocalStatus.RUNNING, LocalStatus.FAILED] ↔
      ¬o = TaskOutcome.exited 0) := by
  cases o with
  | exited rc =>
    by_cases h : rc = 0 <;>
      simp [runTaskReports, runTaskBody, isTerminal, h]
  | setupFailure => simp [runTaskReports, runTaskBody, isTerminal]
  | shutdownInterrupt => simp [runTaskReports, runTaskBody, isTerminal]
  | waitTimeout => simp [runTaskReports, runTaskBody, isTerminal]

/-- Witness for C8 at the successful outcome. -/
theorem c8_witness :
    runTaskReports (TaskOutcome.exited 0) =
      [LocalStatus.RUNNING, LocalStatus.COMPLETED] :=
  (c8_worker_reports_running_then_one_terminal (TaskOutcome.exited 0)).2.2.1.mpr
    rfl

/-- Claim C10 (counterexample): a terminal `update_task_state` for a task
with no assignment-table entry raises `KeyError`, but the new state has
already been recorded by then — `self._task_states[task_id] = new_state`
precedes the failing `del self._used_workers[task_id]` — contradicting
"raises a KeyError instead of recording the state". -/
theorem c10_counterexample_state_recorded_before_keyerror :
    (step initialState
      (Event.update_task_state "t1" LocalStatus.COMPLETED)).err =
      some "KeyError" ∧
    (step initialState
      (Event.update_task_state "t1" LocalStatus.COMPLETED)).state.task_states =
      [("t1", LocalStatus.COMPLETED)] := by
  decide

end GwfLocal

namespace GwfSlurm

/-- Claim C2 (code-bug evidence): the `configure` reconciliation maps each
surviving target name to the *simplified state* of its job, not to its job
identifier: from a job database sending t1 to 42 and a live table sending
42 to R it produces a database sending t1 to R.  The backend's own
`running` — which reads the stored value back as a job id — then misreports
the running job, while it reports correctly on the pre-reconciliation
database, showing the claimed name→job-id invariant is the code's own
intent. -/
theorem c2_configure_replaces_job_ids_with_states :
    configureReconcile [("t1", "42")] [("42", "R")] = [("t1", "R")] ∧
    ¬configureReconcile [("t1", "42")] [("42", "R")] = [("t1", "42")] ∧
    running (configureReconcile [("t1", "42")] [("42", "R")])
      [("42", "R")] "t1" = false ∧
    running [("t1", "42")] [("42", "R")] "t1" = true := by
  decide

/-- Claim C5: writing a job-database mapping with `dump_atomic` (write the
temporary `path + '.new'`, flush, fsync, rename over `path`) and reading it
back with `_read_job_db` yields the same mapping, and aborting after the
temporary write but before the rename leaves the previously committed
contents of `path` unchanged. -/
theorem c5_job_db_roundtrip_and_abort_safety (fs : FileSys) (path : String)
    (obj : List (String × String)) :
    read_job_db (dump_atomic fs path obj) path = obj ∧
    fsRead (dump_atomic_aborted fs path obj) path = fsRead fs path := by
  have hne : ¬(path ++ ".new") = path := by
    intro h
    have hl := congrArg String.length h
    rw [String.length_append] at hl
    have : (".new" : String).length = 4 := rfl
    omega
  constructor
  · unfold read_job_db fsRead dump_atomic fsRename fsWrite
    rw [dictGet?_dictSet_self]
    simp [dictGet?_dictSet_self]
  · unfold dump_atomic_aborted fsRead fsWrite
    rw [dictGet?_dictSet_ne _ _ _ _ hne]

/-- Claim C7 (counterexample): `_compile_script` emits `#SBATCH` directive
lines while iterating the target's options in their own order, not in the
fixed order nodes, cores, memory, walltime: listing `walltime` before
`cores` produces the walltime directive first, and the same option set in
the other order yields a different script. -/
theorem c7_counterexample_directive_order :
    compile_script [("walltime", "01:00:00"), ("cores", "4")]
      "wd" "t" "sp" =
      ["#!/bin/bash", "#SBATCH -t 01:00:00", "#SBATCH -c 4", "",
       "### Generated by GWF", "cd wd", "export GWF_JOBID=$SLURM_JOBID",
       "export GWF_TARGET_NAME=\"t\"", "set -e", "", "sp"] ∧
    ¬compile_script [("walltime", "01:00:00"), ("cores", "4")]
      "wd" "t" "sp" =
      compile_script [("cores", "4"), ("walltime", "01:00:00")]
      "wd" "t" "sp" := by
  decide

/-- Claim C9 (counterexample): for a target with no recorded job, `cancel`
looks its job id up with the sentinel default `'?'`; when `'?'` happens to be
a key of the live-state snapshot the remote cancellation tool is invoked even
though the target has no job identifier, contradicting "the remote
cancellation tool is invoked only if the target's job identifier is present
in the live-state snapshot". -/
theorem c9_counterexample_sentinel_cancel :
    cancel [] [("?", "R")] "t" = some "?" ∧
    dictGet? ([] : List (String × String)) "t" = none := by
  decide

/-- Claim C9 (amended): for the Slurm backend, `cancel` never raises and the
remote cancellation tool is invoked only when the job id looked up for the
target — its recorded id, or the sentinel `'?'` when the target has no
recorded job — is a key of the live-state snapshot; in particular a target
whose recorded job is no longer live (finished or vanished) is a no-op.  The
local backend's `cancel_job` does not implement cancellation and raises
`UnsupportedOperationError` unconditionally. -/
theorem c9_cancel_noop_amended (job_db live : List (String × String))
    (name jid : String) :
    (dictGet? job_db name = some jid → dictGet? live jid = none →
      cancel job_db live name = none) ∧
    (∀ j, cancel job_db live name = some j →
      j = dictGetD job_db name "?" ∧ (dictGet? live j).isSome = true) ∧
    GwfLocal.cancel_job jid =
      Except.error "UnsupportedOperationError: cancel" := by
  refine ⟨?_, ?_, rfl⟩
  · intro h1 h2
    simp [cancel, dictGetD, h1, h2]
  · intro j hj
    unfold cancel at hj
    by_cases hs : (dictGet? live (dictGetD job_db name "?")).isSome = true
    · rw [if_pos hs] at hj
      simp only [Option.some.injEq] at hj
      subst hj
      exact ⟨rfl, hs⟩
    · rw [if_neg hs] at hj
      cases hj

/-- Witness for C9 at a target whose recorded job has left the live table. -/
theorem c9_witness :
    (dictGet? [("t", "1")] "t" = some "1" ∧
      dictGet? ([] : List (String × String)) "1" = none) ∧
    cancel [("t", "1")] [] "t" = none :=
  ⟨⟨by decide, by decide⟩,
    (c9_cancel_noop_amended [("t", "1")] [] "t" "1").1 (by decide) (by decide)⟩

/-- Claim C7 (amended): the generated submission script begins with the
interpreter line and ends with the raw target spec; only keys of the fixed
option table produce `#SBATCH` directive lines and an unrecognized option
contributes nothing; the directive lines appear in the order the target's
options are listed (a recognized option at the head of the option list yields
the first directive line), not in a fixed nodes/cores/memory/walltime order —
it is the legacy `write_script_header` that emits the fixed order, as the
final conjunct shows. -/
theorem c7_script_structure_amended (opts : List (String × String))
    (wd nm sp k v : String) :
    (compile_script opts wd nm sp).head? = some "#!/bin/bash" ∧
    (dictGet? OPTION_TABLE k = none →
      compile_script ((k, v) :: opts) wd nm sp =
        compile_script opts wd nm sp) ∧
    (∀ flag, dictGet? OPTION_TABLE k = some flag →
      compile_script ((k, v) :: opts) wd nm sp =
        "#!/bin/bash" :: ("#SBATCH " ++ flag ++ v) ::
          (compile_script opts wd nm sp).tail) ∧
    (compile_script opts wd nm sp).getLast? = some sp ∧
    ((GwfLegacy.write_script_header opts).2 = none →
      ∃ nodes cores memory walltime tail,
        dictGet? opts "nodes" = some nodes ∧
        dictGet? opts "cores" = some cores ∧
        dictGet? opts "memory" = some memory ∧
        dictGet? opts "walltime" = some walltime ∧
        (GwfLegacy.write_script_header opts).1 =
          ["#SBATCH -N " ++ nodes, "#SBATCH -c " ++ cores,
           "#SBATCH --mem=" ++ memory, "#SBATCH -t " ++ walltime] ++ tail) := by
  refine ⟨rfl, ?_, ?_, ?_, ?_⟩
  · intro h
    simp [compile_script, List.filterMap_cons, h]
  · intro flag h
    simp [compile_script, List.filterMap_cons, h]
  · rw [show compile_script opts wd nm sp =
        ("#!/bin/bash" ::
          (opts.filterMap fun kv =>
            match dictGet? OPTION_TABLE kv.1 with
            | some flag => some ("#SBATCH " ++ flag ++ kv.2)
            | none => none)) ++
          ("" :: ["### Generated by GWF", "cd " ++ wd,
            "export GWF_JOBID=$SLURM_JOBID",
            "export GWF_TARGET_NAME=\"" ++ nm ++ "\"", "set -e", "", sp])
        from rfl]
    rw [List.getLast?_append_cons]
    rfl
  · unfold GwfLegacy.write_script_header
    cases h1 : dictGet? opts "nodes" with
    | none => simp
    | some nodes =>
      cases h2 : dictGet? opts "cores" with
      | none => simp
      | some cores =>
        cases h3 : dictGet? opts "memory" with
        | none => simp
        | some memory =>
          cases h4 : dictGet? opts "walltime" with
          | none => simp
          | some walltime =>
            intro _
            exact ⟨nodes, cores, memory, walltime, _, rfl, rfl, rfl, rfl, rfl⟩

/-- Witness for C7: an unrecognized target option is ignored. -/
theorem c7_witness :
    dictGet? OPTION_TABLE "custom" = none ∧
    compile_script [("custom", "x"), ("cores", "4")] "wd" "t" "sp" =
      compile_script [("cores", "4")] "wd" "t" "sp" :=
  ⟨by decide,
    (c7_script_structure_amended [("cores", "4")] "wd" "t" "sp" "custom"
      "x").2.1 (by decide)⟩

end GwfSlurm

namespace GwfLocal

/-- Claim C10 (amended): a terminal `update_task_state` for a task with no
entry in the task→worker assignment table records the new state and then
raises `KeyError` from `del self._used_workers[task_id]`; the handler
completes without error only when the task is currently present in the
assignment table. -/
theorem c10_terminal_update_amended (s : ServerState) (tid : String)
    (st : LocalStatus)
    (hterm : st = LocalStatus.COMPLETED ∨ st = LocalStatus.FAILED) :
    (dictGet? s.used_workers tid = none →
      (step s (Event.update_task_state tid st)).err = some "KeyError" ∧
      (step s (Event.update_task_state tid st)).state.task_states =
        dictSet s.task_states tid st) ∧
    ((step s (Event.update_task_state tid st)).err = none →
      (dictGet? s.used_workers tid).isSome = true) := by
  rcases hterm with rfl | rfl <;>
  · constructor
    · intro hnone
      simp [step, eventApply, hnone]
    · intro hok
      by_cases hu : (dictGet? s.used_workers tid).isSome = true
      · exact hu
      · rw [Option.not_isSome_iff_eq_none] at hu
        simp [step, eventApply, hu] at hok

/-- Witness for C10 at the empty server state. -/
theorem c10_witness :
    (LocalStatus.COMPLETED = LocalStatus.COMPLETED ∨
      LocalStatus.COMPLETED = LocalStatus.FAILED) ∧
    dictGet? initialState.used_workers "t1" = none ∧
    ((step initialState
        (Event.update_task_state "t1" LocalStatus.COMPLETED)).err =
      some "KeyError" ∧
     (step initialState
        (Event.update_task_state "t1" LocalStatus.COMPLETED)).state.task_states =
      dictSet initialState.task_states "t1" LocalStatus.COMPLETED) :=
  ⟨Or.inl rfl, by decide,
    (c10_terminal_update_amended initialState "t1" LocalStatus.COMPLETED
      (Or.inl rfl)).1 (by decide)⟩

end GwfLocal

namespace GwfLocal

/-! ### Scheduling-pass lemmas -/

theorem scheduleLoop_failed_mono (st : ServerState) (pending : List String) :
    ∀ (failed : List String) (used disp : List (String × String)) (t : String),
      t ∈ failed → t ∈ (scheduleLoop st pending failed used disp).failed := by
  induction pending with
  | nil => intro failed used disp t h; exact h
  | cons tid rest ih =>
    intro failed used disp t h
    simp only [scheduleLoop]
    cases htask : dictGet? st.tasks tid with
    | none => exact h
    | some task =>
      dsimp only
      by_cases h1 : ∃ d ∈ task.dependencies,
          dictGet? st.task_states d = some LocalStatus.FAILED
      · rw [if_pos h1]
        exact ih _ _ _ _ (List.mem_append_left _ h)
      · rw [if_neg h1]
        by_cases h2 : ∃ d ∈ task.dependencies,
            ¬dictGet? st.task_states d = some LocalStatus.COMPLETED
        · rw [if_pos h2]
          exact ih _ _ _ _ h
        · rw [if_neg h2]
          cases freeWorker st.joined_workers st.used_workers with
          | some w => exact ih _ _ _ _ h
          | none => exact ih _ _ _ _ h

theorem scheduleLoop_failed_of_dep_failed (st : ServerState)
    (pending : List String) :
    ∀ (failed : List String) (used disp : List (String × String))
      (tid : String) (task : Task) (d : String),
      (scheduleLoop st pending failed used disp).err = none →
      tid ∈ pending →
      dictGet? st.tasks tid = some task →
      d ∈ task.dependencies →
      dictGet? st.task_states d = some LocalStatus.FAILED →
      tid ∈ (scheduleLoop st pending failed used disp).failed := by
  induction pending with
  | nil => intro _ _ _ _ _ _ _ hmem; cases hmem
  | cons t rest ih =>
    intro failed used disp tid task d herr hmem htask hdep hfail
    rcases List.mem_cons.mp hmem with rfl | hrest
    · simp only [scheduleLoop, htask] at herr ⊢
      have h1 : ∃ d ∈ task.dependencies,
          dictGet? st.task_states d = some LocalStatus.FAILED := ⟨d, hdep, hfail⟩
      rw [if_pos h1]
      exact scheduleLoop_failed_mono st rest _ _ _ _
        (List.mem_append_right _ (List.mem_singleton.mpr rfl))
    · simp only [scheduleLoop] at herr ⊢
      cases htask' : dictGet? st.tasks t with
      | none =>
        rw [htask'] at herr
        cases herr
      | some task' =>
        rw [htask'] at herr
        dsimp only at herr ⊢
        by_cases h1 : ∃ d ∈ task'.dependencies,
            dictGet? st.task_states d = some LocalStatus.FAILED
        · rw [if_pos h1] at herr ⊢
          exact ih _ _ _ _ _ _ herr hrest htask hdep hfail
        · rw [if_neg h1] at herr ⊢
          by_cases h2 : ∃ d ∈ task'.dependencies,
              ¬dictGet? st.task_states d = some LocalStatus.COMPLETED
          · rw [if_pos h2] at herr ⊢
            exact ih _ _ _ _ _ _ herr hrest htask hdep hfail
          · rw [if_neg h2] at herr ⊢
            cases hw : freeWorker st.joined_workers st.used_workers with
            | some w =>
              rw [hw] at herr
              exact ih _ _ _ _ _ _ herr hrest htask hdep hfail
            | none =>
              rw [hw] at herr
              exact ih _ _ _ _ _ _ herr hrest htask hdep hfail

theorem scheduleLoop_dispatch_sound (st : ServerState)
    (pending : List String) :
    ∀ (failed : List String) (used disp : List (String × String))
      (tid w : String),
      (tid, w) ∈ (scheduleLoop st pending failed used disp).dispatches →
      (tid, w) ∈ disp ∨
        ∃ task, dictGet? st.tasks tid = some task ∧
          ∀ d ∈ task.dependencies,
            dictGet? st.task_states d = some LocalStatus.COMPLETED := by
  induction pending with
  | nil => intro failed used disp tid w h; exact Or.inl h
  | cons t rest ih =>
    intro failed used disp tid w h
    simp only [scheduleLoop] at h
    cases htask : dictGet? st.tasks t with
    | none =>
      rw [htask] at h
      exact Or.inl h
    | some task =>
      rw [htask] at h
      dsimp only at h
      by_cases h1 : ∃ d ∈ task.dependencies,
          dictGet? st.task_states d = some LocalStatus.FAILED
      · rw [if_pos h1] at h
        exact ih _ _ _ _ _ h
      · rw [if_neg h1] at h
        by_cases h2 : ∃ d ∈ task.dependencies,
            ¬dictGet? st.task_states d = some LocalStatus.COMPLETED
        · rw [if_pos h2] at h
          exact ih _ _ _ _ _ h
        · rw [if_neg h2] at h
          cases hw : freeWorker st.joined_workers st.used_workers with
          | some w' =>
            rw [hw] at h
            rcases ih _ _ _ _ _ h with hin | hgood
            · rcases List.mem_append.mp hin with hin' | hin'
              · exact Or.inl hin'
              · have heq := List.mem_singleton.mp hin'
                have htid : tid = t := congrArg Prod.fst heq
                subst htid
                push_neg at h2
                exact Or.inr ⟨task, htask, h2⟩
            · exact Or.inr hgood
          | none =>
            rw [hw] at h
            exact ih _ _ _ _ _ h

theorem scheduleOnce_dispatch_sound (st : ServerState) (tid w : String)
    (h : (tid, w) ∈ (scheduleOnce st).dispatches) :
    ∃ task, dictGet? st.tasks tid = some task ∧
      ∀ d ∈ task.dependencies,
        dictGet? st.task_states d = some LocalStatus.COMPLETED := by
  rcases scheduleLoop_dispatch_sound st st.pending_tasks [] [] [] tid w h with
    hin | hgood
  · cases hin
  · exact hgood

theorem scheduleOnce_err_none_failed (st : ServerState) (tid : String)
    (herr : (scheduleOnce st).err = none)
    (hmem : tid ∈ (scheduleLoop st st.pending_tasks [] [] []).failed) :
    dictGet? (scheduleOnce st).state.task_states tid =
      some LocalStatus.FAILED ∧
    ¬tid ∈ (scheduleOnce st).state.pending_tasks := by
  have herr' : (scheduleLoop st st.pending_tasks [] [] []).err = none := herr
  constructor
  · show dictGet? (scheduleResultState st
      (scheduleLoop st st.pending_tasks [] [] [])).task_states tid =
      some LocalStatus.FAILED
    unfold scheduleResultState
    rw [herr']
    exact foldl_setFailed_mem _ _ _ hmem
  · show ¬tid ∈ (scheduleResultState st
      (scheduleLoop st st.pending_tasks [] [] [])).pending_tasks
    unfold scheduleResultState
    rw [herr']
    intro hmem'
    have := (List.mem_filter.mp hmem').2
    simp only [decide_eq_true_eq] at this
    exact this hmem

theorem scheduleOnce_completed_preserved (st : ServerState) (t : String)
    (h : dictGet? (scheduleOnce st).state.task_states t =
      some LocalStatus.COMPLETED) :
    dictGet? st.task_states t = some LocalStatus.COMPLETED := by
  have h' : dictGet? (scheduleResultState st
      (scheduleLoop st st.pending_tasks [] [] [])).task_states t =
      some LocalStatus.COMPLETED := h
  unfold scheduleResultState at h'
  cases herr : (scheduleLoop st st.pending_tasks [] [] []).err with
  | some e =>
    rw [herr] at h'
    exact h'
  | none =>
    rw [herr] at h'
    exact foldl_setFailed_completed _ _ _ h'

end GwfLocal

namespace GwfLocal

/-! ### Event-handler lemmas and the COMPLETED-origin invariant -/

theorem eventApply_task_states (s : ServerState) (e : Event) :
    (eventApply s e).1.task_states =
      match e with
      | .update_task_state tid st' => dictSet s.task_states tid st'
      | .submit_task tid _ _ _ _ _ _ =>
        dictSet s.task_states tid LocalStatus.SUBMITTED
      | _ => s.task_states := by
  cases e with
  | join_worker wid => rfl
  | leave_worker wid =>
    simp only [eventApply]
    split <;> rfl
  | update_task_state tid st' =>
    simp only [eventApply]
    split
    · split <;> rfl
    · rfl
  | get_task_states => rfl
  | submit_task tid nm wd sp deps o er => rfl

theorem eventApply_completedRecorded (pre : List Event) (s : ServerState)
    (e : Event) (h : completedRecorded pre s) :
    completedRecorded (pre ++ [e]) (eventApply s e).1 := by
  intro t ht
  rw [eventApply_task_states] at ht
  cases e with
  | update_task_state tid st' =>
    rw [dictGet?_dictSet] at ht
    by_cases htid : tid = t
    · rw [if_pos htid] at ht
      have hst := Option.some.inj ht
      subst htid
      subst hst
      exact List.mem_append_right _ (List.mem_singleton.mpr rfl)
    · rw [if_neg htid] at ht
      exact List.mem_append_left _ (h t ht)
  | submit_task tid nm wd sp deps o er =>
    rw [dictGet?_dictSet] at ht
    by_cases htid : tid = t
    · rw [if_pos htid] at ht
      exact absurd (Option.some.inj ht) (by decide)
    · rw [if_neg htid] at ht
      exact List.mem_append_left _ (h t ht)
  | join_worker wid => exact List.mem_append_left _ (h t ht)
  | leave_worker wid => exact List.mem_append_left _ (h t ht)
  | get_task_states => exact List.mem_append_left _ (h t ht)

theorem step_completedRecorded (pre : List Event) (s : ServerState) (e : Event)
    (h : completedRecorded pre s) :
    completedRecorded (pre ++ [e]) (step s e).state := by
  have hea := eventApply_completedRecorded pre s e h
  unfold step
  cases hEA : eventApply s e with
  | mk st1 oerr =>
    rw [hEA] at hea
    cases oerr with
    | some err => exact hea
    | none =>
      dsimp only
      split
      · intro t ht
        exact hea t (scheduleOnce_completed_preserved st1 t ht)
      · exact hea

theorem run_completedRecorded : ∀ (es : List Event) (s : ServerState)
    (pre : List Event), completedRecorded pre s → (run s es).2.2 = none →
    completedRecorded (pre ++ es) (run s es).1 := by
  intro es
  induction es with
  | nil =>
    intro s pre h _
    rw [List.append_nil]
    exact h
  | cons e es ih =>
    intro s pre h hok
    simp only [run] at hok ⊢
    cases herr : (step s e).err with
    | some err =>
      rw [herr] at hok
      cases hok
    | none =>
      rw [herr] at hok
      dsimp only at hok ⊢
      have h1 := step_completedRecorded pre s e h
      have h2 := ih (step s e).state (pre ++ [e]) h1 hok
      rw [List.append_assoc, List.singleton_append] at h2
      exact h2

theorem step_dispatch_sound (s : ServerState) (e : Event) (tid w : String)
    (h : (tid, w) ∈ (step s e).dispatches) :
    (tid, w) ∈ (scheduleOnce (eventApply s e).1).dispatches := by
  unfold step at h
  cases hEA : eventApply s e with
  | mk st1 oerr =>
    rw [hEA] at h
    cases oerr with
    | some err =>
      dsimp only at h
      cases h
    | none =>
      dsimp only at h
      split at h
      · exact h
      · cases h

end GwfLocal

namespace GwfLocal

/-- Claim C3: along any error-free run of the Server, whenever processing the
next event dispatches `run_task` for a task to a worker, the task is
registered and every one of its dependencies has state `COMPLETED` in the
state the scheduling pass reads (so in particular no dependency is `FAILED`
at the time of the pass), and an `update_task_state(·, COMPLETED)` event for
that dependency occurs among the processed events. -/
theorem c3_dispatch_requires_completed_dependencies (es : List Event)
    (e : Event) (tid w : String)
    (hok : (run initialState es).2.2 = none)
    (hdisp : (tid, w) ∈ (step (run initialState es).1 e).dispatches) :
    ∃ task,
      dictGet? (eventApply (run initialState es).1 e).1.tasks tid =
        some task ∧
      ∀ d ∈ task.dependencies,
        dictGet? (eventApply (run initialState es).1 e).1.task_states d =
          some LocalStatus.COMPLETED ∧
        Event.update_task_state d LocalStatus.COMPLETED ∈ es ++ [e] := by
  have hd2 := step_dispatch_sound (run initialState es).1 e tid w hdisp
  obtain ⟨task, htask, hdeps⟩ :=
    scheduleOnce_dispatch_sound (eventApply (run initialState es).1 e).1
      tid w hd2
  have hinv0 : completedRecorded [] initialState := by
    intro t ht
    cases ht
  have hinv : completedRecorded es (run initialState es).1 := by
    have := run_completedRecorded es initialState [] hinv0 hok
    rwa [List.nil_append] at this
  have hinv1 :=
    eventApply_completedRecorded es (run initialState es).1 e hinv
  exact ⟨task, htask, fun d hd => ⟨hdeps d hd, hinv1 d (hdeps d hd)⟩⟩

/-- Witness for C3: after a worker joins, a task B runs and completes, a
newly submitted task A depending on B is dispatched, and the theorem yields
B's completion update in the processed events. -/
theorem c3_witness :
    ((run initialState
        [Event.join_worker "w0",
         Event.submit_task "B" "B" "wd" "sp" [] "o" "e",
         Event.update_task_state "B" LocalStatus.COMPLETED]).2.2 = none ∧
      ("A", "w0") ∈
        (step (run initialState
          [Event.join_worker "w0",
           Event.submit_task "B" "B" "wd" "sp" [] "o" "e",
           Event.update_task_state "B" LocalStatus.COMPLETED]).1
          (Event.submit_task "A" "A" "wd" "sp" ["B"] "o" "e")).dispatches) ∧
    (∃ task,
      dictGet? (eventApply (run initialState
          [Event.join_worker "w0",
           Event.submit_task "B" "B" "wd" "sp" [] "o" "e",
           Event.update_task_state "B" LocalStatus.COMPLETED]).1
          (Event.submit_task "A" "A" "wd" "sp" ["B"] "o" "e")).1.tasks "A" =
        some task ∧
      ∀ d ∈ task.dependencies,
        dictGet? (eventApply (run initialState
            [Event.join_worker "w0",
             Event.submit_task "B" "B" "wd" "sp" [] "o" "e",
             Event.update_task_state "B" LocalStatus.COMPLETED]).1
            (Event.submit_task "A" "A" "wd" "sp" ["B"] "o" "e")).1.task_states
          d = some LocalStatus.COMPLETED ∧
        Event.update_task_state d LocalStatus.COMPLETED ∈
          [Event.join_worker "w0",
           Event.submit_task "B" "B" "wd" "sp" [] "o" "e",
           Event.update_task_state "B" LocalStatus.COMPLETED] ++
          [Event.submit_task "A" "A" "wd" "sp" ["B"] "o" "e"]) :=
  ⟨⟨by decide, by decide⟩,
    c3_dispatch_requires_completed_dependencies
      [Event.join_worker "w0",
       Event.submit_task "B" "B" "wd" "sp" [] "o" "e",
       Event.update_task_state "B" LocalStatus.COMPLETED]
      (Event.submit_task "A" "A" "wd" "sp" ["B"] "o" "e") "A" "w0"
      (by decide) (by decide)⟩

/-- Claim C4 (counterexample): transitive failure propagation does not happen
within a single scheduling pass.  With A failed, B pending depending on A and
C pending depending on B, the pass triggered by A's failure report marks B
`FAILED` and removes it from pending, but C — whose ancestor A is `FAILED` —
is still pending in state `SUBMITTED` after the pass (the pass compares
against the pre-pass state table and only direct dependents of an
already-`FAILED` task are marked). -/
theorem c4_counterexample_transitive_failure_needs_later_pass :
    (run initialState
      [Event.join_worker "w0",
       Event.submit_task "A" "A" "wd" "sp" [] "o" "e",
       Event.submit_task "B" "B" "wd" "sp" ["A"] "o" "e",
       Event.submit_task "C" "C" "wd" "sp" ["B"] "o" "e",
       Event.update_task_state "A" LocalStatus.FAILED]).2.2 = none ∧
    dictGet? (run initialState
      [Event.join_worker "w0",
       Event.submit_task "A" "A" "wd" "sp" [] "o" "e",
       Event.submit_task "B" "B" "wd" "sp" ["A"] "o" "e",
       Event.submit_task "C" "C" "wd" "sp" ["B"] "o" "e",
       Event.update_task_state "A" LocalStatus.FAILED]).1.task_states "B" =
      some LocalStatus.FAILED ∧
    dictGet? (run initialState
      [Event.join_worker "w0",
       Event.submit_task "A" "A" "wd" "sp" [] "o" "e",
       Event.submit_task "B" "B" "wd" "sp" ["A"] "o" "e",
       Event.submit_task "C" "C" "wd" "sp" ["B"] "o" "e",
       Event.update_task_state "A" LocalStatus.FAILED]).1.task_states "C" =
      some LocalStatus.SUBMITTED ∧
    "C" ∈ (run initialState
      [Event.join_worker "w0",
       Event.submit_task "A" "A" "wd" "sp" [] "o" "e",
       Event.submit_task "B" "B" "wd" "sp" ["A"] "o" "e",
       Event.submit_task "C" "C" "wd" "sp" ["B"] "o" "e",
       Event.update_task_state "A" LocalStatus.FAILED]).1.pending_tasks := by
  decide

/-- Claim C4 (amended): a scheduling pass marks `FAILED` and removes from
pending every pending task with a *directly* `FAILED` dependency, and never
dispatches such a task; propagation to deeper transitive dependents takes one
further (event-triggered) pass per dependency level.  The claim's two-task
instance does hold end to end: with B depending on A and A failing, B's state
becomes `FAILED` and the only `run_task` ever sent is A's. -/
theorem c4_direct_failure_cascade_amended (st : ServerState) (tid : String)
    (task : Task) (d : String)
    (herr : (scheduleOnce st).err = none)
    (hpend : tid ∈ st.pending_tasks)
    (htask : dictGet? st.tasks tid = some task)
    (hdep : d ∈ task.dependencies)
    (hfail : dictGet? st.task_states d = some LocalStatus.FAILED) :
    (dictGet? (scheduleOnce st).state.task_states tid =
      some LocalStatus.FAILED ∧
     ¬tid ∈ (scheduleOnce st).state.pending_tasks ∧
     ∀ w, ¬(tid, w) ∈ (scheduleOnce st).dispatches) ∧
    ((run initialState
        [Event.join_worker "w0",
         Event.submit_task "A" "A" "wd" "sp" [] "o" "e",
         Event.submit_task "B" "B" "wd" "sp" ["A"] "o" "e",
         Event.update_task_state "A" LocalStatus.FAILED]).2.2 = none ∧
     dictGet? (run initialState
        [Event.join_worker "w0",
         Event.submit_task "A" "A" "wd" "sp" [] "o" "e",
         Event.submit_task "B" "B" "wd" "sp" ["A"] "o" "e",
         Event.update_task_state "A" LocalStatus.FAILED]).1.task_states "B" =
       some LocalStatus.FAILED ∧
     (run initialState
        [Event.join_worker "w0",
         Event.submit_task "A" "A" "wd" "sp" [] "o" "e",
         Event.submit_task "B" "B" "wd" "sp" ["A"] "o" "e",
         Event.update_task_state "A" LocalStatus.FAILED]).2.1 =
       [("A", "w0")]) := by
  have herr' : (scheduleLoop st st.pending_tasks [] [] []).err = none := herr
  have hfmem :=
    scheduleLoop_failed_of_dep_failed st st.pending_tasks [] [] []
      tid task d herr' hpend htask hdep hfail
  obtain ⟨hf1, hf2⟩ := scheduleOnce_err_none_failed st tid herr hfmem
  refine ⟨⟨hf1, hf2, ?_⟩, by decide⟩
  intro w hw
  obtain ⟨task', htask', hcomp⟩ := scheduleOnce_dispatch_sound st tid w hw
  rw [htask] at htask'
  cases Option.some.inj htask'
  have hC := hcomp d hdep
  rw [hfail] at hC
  cases Option.some.inj hC


/-- Witness for C4 at a concrete state with B pending on a failed A. -/
theorem c4_witness :
    ((scheduleOnce
        { tasks := [("B", { task_id := "B",
                            name := "B",
                            working_dir := "wd",
                            spec := "sp",
                            dependencies := ["A"],
                            stdout_path := "o",
                            stderr_path := "e" })],
          task_states := [("A", LocalStatus.FAILED),
                          ("B", LocalStatus.SUBMITTED)],
          pending_tasks := ["B"],
          joined_workers := ["w0"],
          used_workers := [] }).err = none ∧
      "B" ∈ (["B"] : List String)) ∧
    dictGet? (scheduleOnce
        { tasks := [("B", { task_id := "B",
                            name := "B",
                            working_dir := "wd",
                            spec := "sp",
                            dependencies := ["A"],
                            stdout_path := "o",
                            stderr_path := "e" })],
          task_states := [("A", LocalStatus.FAILED),
                          ("B", LocalStatus.SUBMITTED)],
          pending_tasks := ["B"],
          joined_workers := ["w0"],
          used_workers := [] }).state.task_states "B" =
      some LocalStatus.FAILED :=
  ⟨⟨by decide, by decide⟩,
    ((c4_direct_failure_cascade_amended
      { tasks := [("B", { task_id := "B",
                          name := "B",
                          working_dir := "wd",
                          spec := "sp",
                          dependencies := ["A"],
                          stdout_path := "o",
                          stderr_path := "e" })],
        task_states := [("A", LocalStatus.FAILED),
                        ("B", LocalStatus.SUBMITTED)],
        pending_tasks := ["B"],
        joined_workers := ["w0"],
        used_workers := [] } "B"
      { task_id := "B",
        name := "B",
        working_dir := "wd",
        spec := "sp",
        dependencies := ["A"],
        stdout_path := "o",
        stderr_path := "e" } "A"
      (by decide) (by decide) (by decide) (by decide) (by decide)).1).1⟩

end GwfLocal

namespace GwfLegacy

theorem wrapStates_dictSet (acc : List (String × String)) (j v : String) :
    wrapStates (dictSet acc j v) = dictSet (wrapStates acc) j (JEntry.state v) := by
  induction acc with
  | nil => rfl
  | cons kv rest ih =>
    obtain ⟨k, x⟩ := kv
    by_cases hk : k = j
    · simp [wrapStates, dictSet, hk]
    · simp [wrapStates, dictSet, hk, ih]
      exact ih

end GwfLegacy

namespace GwfSlurm

/-- On a table whose raw state codes are all recognized, the modern
`_live_job_states` loop and the legacy `get_state_of_jobs` loop compute the
same job→state table (the legacy one wrapping values in its result type). -/
theorem loops_agree (rows : List (String × String × String)) :
    ∀ acc : List (String × String),
      (∀ r ∈ rows, (dictGet? JOB_STATE_CODES r.2.1).isSome = true) →
      ∃ m, liveJobStatesLoop rows acc = Except.ok m ∧
        GwfLegacy.gsojLoop rows (GwfLegacy.wrapStates acc) =
          GwfLegacy.wrapStates m := by
  induction rows with
  | nil => intro acc _; exact ⟨acc, rfl, rfl⟩
  | cons row rest ih =>
    obtain ⟨jid, st, dep⟩ := row
    intro acc hrec
    have hhead : (dictGet? JOB_STATE_CODES st).isSome = true :=
      hrec (jid, st, dep) (List.mem_cons_self _ _)
    rw [Option.isSome_iff_exists] at hhead
    obtain ⟨simple, hsimple⟩ := hhead
    have hsimple' : dictGet? GwfLegacy.map_state st = some simple := hsimple
    have hrest : ∀ r ∈ rest, (dictGet? JOB_STATE_CODES r.2.1).isSome = true :=
      fun r hr => hrec r (List.mem_cons_of_mem _ hr)
    simp only [liveJobStatesLoop, GwfLegacy.gsojLoop, hsimple, hsimple']
    by_cases hq : simple = "Q" ∧ dep ≠ ""
    · rw [if_pos hq, if_pos hq]
      obtain ⟨m, h1, h2⟩ := ih (dictSet acc jid "H") hrest
      refine ⟨m, h1, ?_⟩
      rw [← GwfLegacy.wrapStates_dictSet]
      exact h2
    · rw [if_neg hq, if_neg hq]
      obtain ⟨m, h1, h2⟩ := ih (dictSet acc jid simple) hrest
      refine ⟨m, h1, ?_⟩
      rw [← GwfLegacy.wrapStates_dictSet]
      exact h2

/-- Claim C6: the squeue-table mapping is a pure function of the table: a row
with raw code `R` maps to `R`, a row with raw code `PD` and a non-empty
dependency string maps to `H`, and a row with raw code `PD` and an empty
dependency string maps to `Q`; and on every table whose codes are recognized
the two implementations (`SlurmBackend._live_job_states` in the slurm backend
and `SlurmBackend.get_state_of_jobs` in the legacy adapter, given no
pre-tracked job ids) compute the same job→state table. -/
theorem c6_state_mapping_pure_and_consistent (jid dep : String)
    (rows : List (String × String × String)) :
    live_job_states [(jid, "R", dep)] = Except.ok [(jid, "R")] ∧
    (¬dep = "" →
      live_job_states [(jid, "PD", dep)] = Except.ok [(jid, "H")]) ∧
    live_job_states [(jid, "PD", "")] = Except.ok [(jid, "Q")] ∧
    ((∀ r ∈ rows, (dictGet? JOB_STATE_CODES r.2.1).isSome = true) →
      ∃ m, live_job_states rows = Except.ok m ∧
        GwfLegacy.get_state_of_jobs [] rows = GwfLegacy.wrapStates m) := by
  refine ⟨?_, ?_, ?_, ?_⟩
  · show liveJobStatesLoop [(jid, "R", dep)] [] = Except.ok [(jid, "R")]
    have h : dictGet? JOB_STATE_CODES "R" = some "R" := rfl
    simp only [liveJobStatesLoop, h]
    rw [if_neg (fun hc => absurd hc.1 (by decide))]
    rfl
  · intro hdep
    show liveJobStatesLoop [(jid, "PD", dep)] [] = Except.ok [(jid, "H")]
    have h : dictGet? JOB_STATE_CODES "PD" = some "Q" := rfl
    simp only [liveJobStatesLoop, h]
    rw [if_pos ⟨trivial, hdep⟩]
    rfl
  · show liveJobStatesLoop [(jid, "PD", "")] [] = Except.ok [(jid, "Q")]
    have h : dictGet? JOB_STATE_CODES "PD" = some "Q" := rfl
    simp only [liveJobStatesLoop, h]
    rw [if_neg (fun hc => hc.2 rfl)]
    rfl
  · intro hrec
    obtain ⟨m, h1, h2⟩ := loops_agree rows [] hrec
    exact ⟨m, h1, h2⟩

/-- Witness for C6 on concrete rows. -/
theorem c6_witness :
    (¬("x" : String) = "" ∧
      ∀ r ∈ [("1", "R", "")],
        (dictGet? JOB_STATE_CODES (r.2.1 : String)).isSome = true) ∧
    (live_job_states [("1", "PD", "x")] = Except.ok [("1", "H")] ∧
      ∃ m, live_job_states [("1", "R", "")] = Except.ok m ∧
        GwfLegacy.get_state_of_jobs [] [("1", "R", "")] =
          GwfLegacy.wrapStates m) :=
  ⟨⟨by decide, by decide⟩,
    (c6_state_mapping_pure_and_consistent "1" "x" [("1", "R", "")]).2.1
      (by decide),
    (c6_state_mapping_pure_and_consistent "1" "x" [("1", "R", "")]).2.2.2
      (by decide)⟩

end GwfSlurm
